import Mathlib

/-!
Verification of the ytmcli playback-control subsystem.

This file gives a shallow embedding of the Python sources of ytmcli
(controls.py, vlc_client.py, mpv_client.py, screen.py, main.py) and proves
or refutes the frozen specification claims about them.  Python numbers are
modelled as exact rationals and integers; where a claim hinges on binary64
rounding, an explicit round-to-nearest model over rationals is used.
Python truthiness, string formatting and exception swallowing are modelled
explicitly at each use site.
-/

namespace Ytmcli

/-- Python int() applied to a rational: truncation toward zero, computed as
truncating division of the reduced numerator by the (positive) denominator. -/
def pyInt (q : ℚ) : ℤ :=
  Int.tdiv q.num q.den

/-- Python string repetition c * n: empty for nonpositive counts. -/
def repChar (c : Char) (n : ℤ) : String :=
  String.mk (List.replicate n.toNat c)

/-- A playback status dictionary as built by vlc_client.get_status and
MPVClient.get_status: keys time, length, state, volume. -/
structure Status where
  time : ℤ
  length : ℤ
  state : String
  volume : ℤ
deriving DecidableEq

/-- The JSON body of a VLC status response; each field is absent or present,
read with data.get and the default used in vlc_client.get_status. -/
structure VlcJson where
  time : Option ℤ
  length : Option ℤ
  state : Option String
  volume : Option ℤ
deriving DecidableEq

/-- Outcome of the requests.get exchange in vlc_client.get_status: failure is
any raised exception (connection refused, timeout, JSON parse error), and
response carries the HTTP status code and parsed body. -/
inductive HttpResult where
  | failure
  | response (code : ℕ) (data : VlcJson)
deriving DecidableEq

/-- Embedding of vlc_client.get_status: on a 200 response build the status
dictionary with the data.get defaults; on any other code fall through to the
final return None; on an exception the bare except returns None. -/
def vlc_get_status : HttpResult → Option Status
  | .failure => none
  | .response code data =>
      if code = 200 then
        some ⟨data.time.getD 0, data.length.getD 0,
              data.state.getD "stopped", data.volume.getD 256⟩
      else none

/-- Python expression (volume or 100): the float 0.0 is falsy, so a stored
zero volume also yields 100. -/
def pyOrHundred (x : Option ℚ) : ℚ :=
  match x with
  | none => 100
  | some v => if v = 0 then 100 else v

/-- Embedding of MPVClient.get_status.  Inputs are the four get_property
results, where none models an unreachable socket or missing property.  The
constant 2.56 is modelled by the exact rational 64 / 25; at the values this
file evaluates, binary64 evaluation of volume * 2.56 truncates to the same
integer.  The function mirrors: state is paused only when the pause property
is the value True; a missing time-pos forces state stopped and time 0; the
int(... or 0) defaults apply to time and length. -/
def mpv_get_status (pause : Option Bool) (timePos duration volume : Option ℚ) :
    Option Status :=
  let state0 := if pause = some true then "paused" else "playing"
  let st : String × ℚ :=
    match timePos with
    | none => ("stopped", 0)
    | some t => (state0, t)
  some ⟨pyInt st.2, pyInt (duration.getD 0), st.1,
        pyInt (pyOrHundred volume * (64 / 25))⟩

/-- A Python value as passed for the optional value argument of the control
dispatchers: None, a string, or an integer. -/
inductive PyVal where
  | vNone
  | vStr (s : String)
  | vInt (n : ℤ)
deriving DecidableEq

/-- Python truthiness of a PyVal. -/
def PyVal.truthy : PyVal → Bool
  | .vNone => false
  | .vStr s => decide (s ≠ "")
  | .vInt n => decide (n ≠ 0)

/-- Python str(value). -/
def PyVal.toText : PyVal → String
  | .vNone => "None"
  | .vStr s => s
  | .vInt n => toString n

/-- Embedding of vlc_client.control: the HTTP query string of the request it
issues, or none when no request is sent.  The function itself always returns
None in Python (there is no return statement), and its bare except swallows
any request error. -/
def vlc_control_request (action : String) (value : PyVal) : Option String :=
  if action = "pause" then some "command=pl_pause"
  else if action = "volume_up" then some "command=volume&val=+10"
  else if action = "volume_down" then some "command=volume&val=-10"
  else if action = "seek" ∧ value.truthy = true then
    some ("command=seek&val=" ++ value.toText)
  else none

/-- Request that the claim attributes to a volume-up exchange, following the
specification words: the clamped absolute value min(100, current + 10).
This definition follows the claim, not the source, and exists to be compared
with vlc_control_request. -/
def spec_volume_up_request (current : ℤ) : String :=
  "command=volume&val=" ++ toString (min 100 (current + 10))

/-- Embedding of MPVClient.volume_up: the value passed to
set_property volume, or none when get_property returned None and no request
is made. -/
def mpv_volume_up (current : Option ℚ) : Option ℚ :=
  current.map fun c => min 100 (c + 10)

/-- Embedding of MPVClient.volume_down. -/
def mpv_volume_down (current : Option ℚ) : Option ℚ :=
  current.map fun c => max 0 (c - 10)

/-- vol_percent in MusicPlayerScreen.display_volume:
int((volume / 256) * 100). -/
def vol_percent (volume : ℤ) : ℤ :=
  pyInt ((volume : ℚ) / 256 * 100)

/-- Suffix chosen in MusicPlayerScreen.display_volume: the AMPLIFIED label
exactly when vol_percent exceeds 100. -/
def amplified_suffix (volume : ℤ) : String :=
  if 100 < vol_percent volume then " (AMPLIFIED)" else ""

/-- Filled cell count of the volume bar in display_volume:
int(bar_length * min(100, vol_percent) / 100) with bar_length 20. -/
def vol_filled (volume : ℤ) : ℤ :=
  pyInt ((20 * min 100 (vol_percent volume) : ℤ) / (100 : ℚ))

/-- Embedding of MusicPlayerScreen.display_volume: the rendered volume line. -/
def display_volume (volume : ℤ) : String :=
  "[" ++ repChar '█' (vol_filled volume)
      ++ repChar '░' (20 - vol_filled volume) ++ "] "
      ++ toString (vol_percent volume) ++ "%" ++ amplified_suffix volume
      ++ " VOL"

/-- Floor of the base-two logarithm, by structural recursion on a fuel bound;
correct for arguments below 2 to the 64, which covers every value occurring
in the binary64 computations modelled here. -/
def log2Fuel : ℕ → ℕ → ℕ
  | 0, _ => 0
  | fuel + 1, n => if n ≤ 1 then 0 else log2Fuel fuel (n / 2) + 1

/-- Floor base-two logarithm with fixed fuel 64. -/
def log2F (n : ℕ) : ℕ :=
  log2Fuel 64 n

/-- Round-to-nearest IEEE-754 binary64 model for a positive rational given as
a reduced fraction n / d: find the binary exponent e with 2 ^ e ≤ n / d
below 2 ^ (e + 1), scale to a 53-bit mantissa, and round to the nearest
integer mantissa, halves rounding up.  Exact halves never occur at the
values evaluated in this file, so the tie rule is immaterial here; exponent
overflow and subnormals are likewise out of range for these values. -/
def roundDpos (n d : ℕ) : ℚ :=
  let a := log2F n
  let b := log2F d
  let e : ℤ := if d * 2 ^ a ≤ n * 2 ^ b then (a : ℤ) - b else (a : ℤ) - b - 1
  if 52 ≤ e then
    let k := (e - 52).toNat
    let m := (2 * n + d * 2 ^ k) / (2 * d * 2 ^ k)
    Rat.divInt ((m * 2 ^ k : ℕ) : ℤ) 1
  else
    let k := (52 - e).toNat
    let m := (2 * n * 2 ^ k + d) / (2 * d)
    Rat.divInt ((m : ℕ) : ℤ) ((2 ^ k : ℕ) : ℤ)

/-- Round-to-nearest binary64 model on all rationals. -/
def roundD (q : ℚ) : ℚ :=
  if q = 0 then 0
  else if 0 < q then roundDpos q.num.toNat q.den
  else -(roundDpos (-q.num).toNat q.den)

/-- Exact rational product, written on numerators and denominators so that it
evaluates by kernel reduction. -/
def qmul (x y : ℚ) : ℚ :=
  Rat.divInt (x.num * y.num) ((x.den : ℤ) * (y.den : ℤ))

/-- Exact rational quotient, written on numerators and denominators so that
it evaluates by kernel reduction. -/
def qdiv (x y : ℚ) : ℚ :=
  Rat.divInt (x.num * (y.den : ℤ)) ((x.den : ℤ) * y.num)

/-- Binary64 multiplication: exact product, then round to nearest. -/
def fmulF (x y : ℚ) : ℚ :=
  roundD (qmul x y)

/-- Binary64 division: exact quotient, then round to nearest. -/
def fdivF (x y : ℚ) : ℚ :=
  roundD (qdiv x y)

/-- Python min of two numbers. -/
def pymin (x y : ℚ) : ℚ :=
  if x ≤ y then x else y

/-- Percent as computed by render_frame in screen.py and draw_screen in
main.py under binary64 arithmetic: min(100, elapsed / duration * 100), for a
status with integer time and length fields and positive length. -/
def percent_float (elapsed duration : ℤ) : ℚ :=
  pymin 100 (fmulF (fdivF (Rat.divInt elapsed 1) (Rat.divInt duration 1)) (Rat.divInt 100 1))

/-- Exact position bar_length * percent / 100 of display_progress under
binary64 arithmetic. -/
def exact_pos_float (percent : ℚ) : ℚ :=
  fdivF (fmulF (Rat.divInt 30 1) percent) (Rat.divInt 100 1)

/-- Eighth-block glyph chosen in display_progress for a fractional remainder
strictly between 0 and 1.  The Python literals 0.125 through 0.875 are exact
binary64 values equal to these rationals. -/
def eighth_glyph (frac : ℚ) : String :=
  if frac ≤ 1/8 then " "
  else if frac ≤ 1/4 then "▏"
  else if frac ≤ 3/8 then "▎"
  else if frac ≤ 1/2 then "▍"
  else if frac ≤ 5/8 then "▌"
  else if frac ≤ 3/4 then "▋"
  else if frac ≤ 7/8 then "▊"
  else "▉"

/-- Bar construction of display_progress from the computed exact position:
whole block cells, an optional fractional glyph when the remainder is
positive, then space padding up to the fixed bar length 30.  The integer
whole part is cast back to a rational as Rat.divInt whole 1 so that the
definition evaluates by kernel reduction. -/
def bar_of_pos (exactPos : ℚ) : String :=
  let whole := pyInt exactPos
  let frac : ℚ := exactPos - Rat.divInt whole 1
  let bar0 := repChar '█' whole
  let bar1 := if 0 < frac then bar0 ++ eighth_glyph frac else bar0
  bar1 ++ repChar ' ' (30 - (bar1.length : ℤ))

/-- Progress bar of display_progress (screen.py, identical in main.py) with
exact rational arithmetic: exact position bar_length * percent / 100. -/
def progress_bar (percent : ℚ) : String :=
  bar_of_pos (30 * percent / 100)

/-- Progress bar of display_progress under binary64 arithmetic. -/
def progress_bar_float (percent : ℚ) : String :=
  bar_of_pos (exact_pos_float percent)

/-- Python f-string 02d formatting: pad to width two with a leading zero. -/
def fmt2 (n : ℤ) : String :=
  if 0 ≤ n ∧ n < 10 then "0" ++ toString n else toString n

/-- Python divmod on integers: floor division with the matching remainder. -/
def pyDivmod (a b : ℤ) : ℤ × ℤ :=
  (Int.fdiv a b, Int.fmod a b)

/-- Embedding of display_progress in screen.py: the full rendered line, with
exact rational arithmetic for the bar position.  The duration test mirrors
Python truthiness: divmod(int(duration), 60) if duration else (0, 0). -/
def display_progress (duration elapsed percent : ℚ) : String :=
  let bar := progress_bar percent
  let e := pyDivmod (pyInt elapsed) 60
  let d := if duration = 0 then ((0 : ℤ), (0 : ℤ)) else pyDivmod (pyInt duration) 60
  let remaining : ℚ := max 0 (duration - elapsed)
  let r := pyDivmod (pyInt remaining) 60
  "[" ++ bar ++ "] " ++ fmt2 e.1 ++ ":" ++ fmt2 e.2 ++ " / " ++ fmt2 d.1 ++ ":" ++ fmt2 d.2
      ++ " [" ++ fmt2 r.1 ++ ":" ++ fmt2 r.2 ++ " remaining]"

/-- Mode of the controlling terminal: the saved original mode, or the cbreak
no-echo mode installed by tty.setcbreak. -/
inductive TermMode where
  | original
  | cbreak
deriving DecidableEq

/-- Terminal-related state of a MusicPlayerScreen object together with the
actual terminal mode: fd and oldSettings model the attributes self.fd and
self.old_settings, both None until setup_terminal runs.  A present
oldSettings models the termios attribute list, which is always a nonempty
list and hence always truthy in Python. -/
structure ScreenState where
  fd : Option ℤ
  oldSettings : Option TermMode
  mode : TermMode
deriving DecidableEq

/-- MusicPlayerScreen.setup_terminal: record stdin fileno, save the current
mode, and put the terminal into cbreak mode. -/
def setup_terminal (stdinFd : ℤ) (s : ScreenState) : ScreenState :=
  { fd := some stdinFd, oldSettings := some s.mode, mode := .cbreak }

/-- MusicPlayerScreen.restore_terminal.  The guard is the Python condition
if self.fd and self.old_settings, under Python truthiness: the integer 0 is
falsy, so a file descriptor equal to 0 skips the tcsetattr call. -/
def restore_terminal (s : ScreenState) : ScreenState :=
  match s.fd, s.oldSettings with
  | some fd, some old => if fd ≠ 0 then { s with mode := old } else s
  | _, _ => s

/-- Observable control-flow outcome of one iteration of the display loop in
MusicPlayerScreen.run_display_loop while the player is still running:
the iteration completes and continues, handle_input returns a non-None
result, or an exception is raised inside the loop body. -/
inductive TickEvent where
  | keeps
  | intent (r : String)
  | raises
deriving DecidableEq

/-- Exit paths of the display loop: the while condition observed the player
process exited, handle_input ended the loop with a result, or an exception
propagated. -/
inductive LoopExit where
  | finished
  | returned (r : String)
  | raised
deriving DecidableEq

/-- Control flow of the while loop in run_display_loop over the schedule of
iteration outcomes; an exhausted schedule means the next poll of the player
process reports it has exited. -/
def loop_body : List TickEvent → LoopExit
  | [] => .finished
  | .keeps :: rest => loop_body rest
  | .intent r :: _ => .returned r
  | .raises :: _ => .raised

/-- MusicPlayerScreen.run_display_loop: setup_terminal, the while loop, and
the finally clause, which runs restore_terminal on every exit path of the
loop (normal completion, an intent return, or an exception). -/
def run_display_loop (stdinFd : ℤ) (ticks : List TickEvent) (s : ScreenState) :
    LoopExit × ScreenState :=
  let s1 := setup_terminal stdinFd s
  (loop_body ticks, restore_terminal s1)

/-- Observable outcome of one iteration of the loop in main.py draw_screen,
run under the signal handlers installed by handle_playback: the iteration
continues, the q key is pressed (force_kill_vlc then os._exit(0)), an
interrupt signal arrives (the handler calls force_kill_vlc then
os._exit(0)), or an exception is raised. -/
inductive MainTick where
  | keeps
  | keyQuit
  | sigint
  | raises
deriving DecidableEq

/-- Exit paths of main.py draw_screen: natural finish, an exception, or a
process-wide os._exit. -/
inductive MainExit where
  | finished
  | raised
  | osExit
deriving DecidableEq

/-- Control flow of the while loop in main.py draw_screen. -/
def main_loop : List MainTick → MainExit
  | [] => .finished
  | .keeps :: rest => main_loop rest
  | .keyQuit :: _ => .osExit
  | .sigint :: _ => .osExit
  | .raises :: _ => .raised

/-- main.py draw_screen together with the handle_playback signal handlers:
tcgetattr saves the mode, tty.setcbreak installs cbreak, and the finally
clause restores the saved mode - except that os._exit(0) terminates the
process immediately and bypasses the finally clause, leaving the terminal
in cbreak mode. -/
def main_draw_screen (ticks : List MainTick) (m0 : TermMode) : MainExit × TermMode :=
  match main_loop ticks with
  | .osExit => (.osExit, .cbreak)
  | e => (e, m0)

/-- Side-effecting calls observable from controls.py and the player clients. -/
inductive Action where
  | controlReq (action : String) (value : Option String)
  | quitCmd
  | terminate
  | kill
  | unlink
  | historyDeleteLast
deriving DecidableEq

/-- An external player process as seen by vlc_client.force_kill_vlc: whether
it is currently running, and whether it is still alive when polled again
after terminate plus the grace sleep.  kill is modelled as fatal. -/
structure Proc where
  alive : Bool
  survivesTerm : Bool
deriving DecidableEq

/-- Embedding of vlc_client.force_kill_vlc: terminate if the process is
running, then kill if it is still alive after the grace sleep. -/
def force_kill_vlc (p : Proc) : Proc × List Action :=
  if p.alive then
    if p.survivesTerm then (⟨false, p.survivesTerm⟩, [.terminate, .kill])
    else (⟨false, p.survivesTerm⟩, [.terminate])
  else (p, [])

/-- Result of controls.handle_input: the returned value (None, quit or
stop), the player process afterwards, the number of bytes consumed from the
input stream, and the side-effecting calls made. -/
structure InputResult where
  ret : Option String
  proc : Proc
  consumed : ℕ
  actions : List Action
deriving DecidableEq

/-- The escape byte 0x1B. -/
def esc : Char :=
  Char.ofNat 27

/-- Embedding of controls.handle_input on the bytes available on stdin.  An
empty list models select() reporting no input ready (the function returns
None without reading); otherwise the first byte is read and lowercased; an
escape byte triggers a read of two further bytes, resolved against the four
arrow sequences; otherwise the single-byte key map applies. -/
def handle_input (input : List Char) (p : Proc) : InputResult :=
  match input with
  | [] => ⟨none, p, 0, []⟩
  | c :: rest =>
    let key := c.toLower
    if key = esc then
      let seq := rest.take 2
      let consumed := 1 + min 2 rest.length
      if seq = ['[', 'A'] then ⟨none, p, consumed, [.controlReq "volume_up" none]⟩
      else if seq = ['[', 'B'] then ⟨none, p, consumed, [.controlReq "volume_down" none]⟩
      else if seq = ['[', 'C'] then ⟨none, p, consumed, [.controlReq "seek" (some "+5")]⟩
      else if seq = ['[', 'D'] then ⟨none, p, consumed, [.controlReq "seek" (some "-5")]⟩
      else ⟨none, p, consumed, []⟩
    else if key = 'q' then
      ⟨some "quit", (force_kill_vlc p).1, 1, (force_kill_vlc p).2⟩
    else if key = 's' then
      ⟨some "stop", (force_kill_vlc p).1, 1, (force_kill_vlc p).2⟩
    else if key = 'i' then ⟨none, p, 1, [.controlReq "volume_up" none]⟩
    else if key = 'o' then ⟨none, p, 1, [.controlReq "volume_down" none]⟩
    else if key = 'l' then ⟨none, p, 1, [.controlReq "seek" (some "+5")]⟩
    else if key = 'k' then ⟨none, p, 1, [.controlReq "seek" (some "-5")]⟩
    else if key = 'p' then ⟨none, p, 1, [.controlReq "pause" none]⟩
    else if key = 'r' then ⟨none, p, 1, [.historyDeleteLast]⟩
    else ⟨none, p, 1, []⟩

/-- Behaviour of the mpv process under MPVClient.stop: whether it is alive
when polled at entry; whether it is still alive when polled after the quit
command and the 0.2 second sleep; and whether it is still alive when polled
after terminate and the further 0.2 second sleep.  kill is modelled as
fatal. -/
structure ProcB where
  alive : Bool
  survivesQuit : Bool
  survivesTerm : Bool
deriving DecidableEq

/-- Client-side fields of an MPVClient object that stop reads and clears. -/
structure MPVState where
  process : Option ProcB
  socketPath : Option String
deriving DecidableEq

/-- Escalation trace of MPVClient.stop against a live process: quit over the
control socket first; terminate only if still alive after the grace sleep;
kill only if still alive after the second grace sleep. -/
def stop_escalation (p : ProcB) : List Action :=
  if p.alive then
    .quitCmd :: (if p.survivesQuit then .terminate :: (if p.survivesTerm then [.kill] else []) else [])
  else []

/-- Embedding of MPVClient.stop.  Inputs: the client state and whether the
file at socketPath currently exists.  Outputs: the client state afterwards
(both fields cleared), whether the socket file exists afterwards, whether
the spawned process is still running afterwards, and the actions performed.
The socket cleanup mirrors if self.socket_path and os.path.exists(...). -/
def mpv_stop (s : MPVState) (sockFile : Bool) : MPVState × Bool × Bool × List Action :=
  let acts := match s.process with
    | some p => stop_escalation p
    | none => []
  let cleanup : Bool × List Action := match s.socketPath with
    | some _ => if sockFile then (false, [Action.unlink]) else (sockFile, [])
    | none => (sockFile, [])
  (⟨none, none⟩, cleanup.1, false, acts ++ cleanup.2)

/-- Removal of every occurrence of a character from a string, as Python
str.replace with an empty replacement. -/
def removeAll (c : Char) (s : String) : String :=
  String.mk (s.toList.filter (fun x => x ≠ c))

/-- Python int() on a string: an optional single leading sign followed by
one or more decimal digits.  The inputs evaluated in this file use no
whitespace or underscores, which Python would additionally allow. -/
def pyParseInt (s : String) : Option ℤ :=
  match s.toList with
  | [] => none
  | c :: cs =>
    let signed : Bool × List Char :=
      if c = '-' then (true, cs) else if c = '+' then (false, cs) else (false, c :: cs)
    if signed.2 ≠ [] ∧ signed.2.all Char.isDigit then
      let n : ℕ := signed.2.foldl (fun acc d => 10 * acc + (d.toNat - 48)) 0
      some (if signed.1 then -(n : ℤ) else (n : ℤ))
    else none

/-- The parse performed in the seek branch of mpv_client.control:
int(str(value).replace(plus, empty)), removing every plus character. -/
def mpv_seek_parse (value : PyVal) : Option ℤ :=
  pyParseInt (removeAll '+' value.toText)

/-- The parse the claim describes, following its words: strip one leading
plus sign, then parse as an integer.  This definition follows the claim,
not the source, and exists to be compared with mpv_seek_parse. -/
def spec_seek_parse (s : String) : Option ℤ :=
  match s.toList with
  | '+' :: rest => pyParseInt (String.mk rest)
  | _ => pyParseInt s

/-- Observable behaviour of mpv_client.control for the seek action: the
relative-seek command sent to the player (none when no exchange happens)
and whether the dispatcher returned the constant False.  The guard mirrors
action equals seek and value, and the bare except around int() returns
False on a parse failure. -/
def mpv_control_seek (value : PyVal) : Option ℤ × Bool :=
  if value.truthy then
    match mpv_seek_parse value with
    | some n => (some n, false)
    | none => (none, true)
  else (none, true)

theorem pyInt_eq_floor (q : ℚ) (h : 0 ≤ q) : pyInt q = ⌊q⌋ := by
  rw [pyInt, Rat.floor_def]
  exact Int.tdiv_eq_ediv (Rat.num_nonneg.mpr h) (Int.natCast_nonneg q.den)

theorem repChar_length (c : Char) (n : ℤ) : (repChar c n).length = n.toNat := by
  simp [repChar, String.length]

theorem eighth_glyph_length (f : ℚ) : (eighth_glyph f).length = 1 := by
  unfold eighth_glyph
  split_ifs <;> rfl

theorem bar_of_pos_length (q : ℚ) (h0 : 0 ≤ q) (h30 : q ≤ 30) :
    (bar_of_pos q).length = 30 := by
  have hfl : pyInt q = ⌊q⌋ := pyInt_eq_floor q h0
  have hw0 : 0 ≤ ⌊q⌋ := Int.floor_nonneg.mpr h0
  have hw30 : ⌊q⌋ ≤ 30 := by
    have h := Int.floor_le_floor h30
    simpa using h
  simp only [bar_of_pos, hfl, Rat.divInt_one]
  by_cases hfrac : 0 < q - (⌊q⌋ : ℚ)
  · have hw29 : ⌊q⌋ ≤ 29 := by
      have hlt : (⌊q⌋ : ℚ) < q := by linarith
      have hlt30 : (⌊q⌋ : ℚ) < 30 := lt_of_lt_of_le hlt h30
      have : ⌊q⌋ < 30 := by exact_mod_cast hlt30
      omega
    rw [if_pos hfrac, String.length_append, String.length_append, repChar_length,
      repChar_length, eighth_glyph_length]
    omega
  · rw [if_neg hfrac, String.length_append, repChar_length, repChar_length]
    omega

/-- C1.  The claim states that after every execution of the status/display
loop, on every exit path, the terminal mode equals the mode observed before
raw-mode entry.  The code refutes it: restore_terminal guards the tcsetattr
call with the Python condition if self.fd and self.old_settings, and stdin
has file descriptor 0, which is falsy, so run_display_loop never restores
the terminal in the standard configuration - here shown on the natural-exit
path with an empty schedule and on an intent exit.  Independently, the q
key and the interrupt handler in main.py call os._exit(0), which bypasses
the finally clause of draw_screen, again leaving cbreak mode. -/
theorem C1_terminal_left_in_cbreak :
    (run_display_loop 0 [] ⟨none, none, .original⟩).2.mode = .cbreak
  ∧ (run_display_loop 0 [.keeps, .intent "quit"] ⟨none, none, .original⟩).2.mode = .cbreak
  ∧ (run_display_loop 0 [.keeps, .raises] ⟨none, none, .original⟩).2.mode = .cbreak
  ∧ (main_draw_screen [.keyQuit] .original).2 = .cbreak
  ∧ (main_draw_screen [.sigint] .original).2 = .cbreak
  ∧ TermMode.cbreak ≠ TermMode.original := by
  decide

/-- Restoration does work in run_display_loop whenever the saved descriptor
is nonzero, on all three exit paths: the failure in C1 is precisely the
truthiness slip on descriptor 0 together with the os._exit paths of
main.py. -/
theorem restore_works_for_nonzero_fd (fd : ℤ) (hfd : fd ≠ 0) (ticks : List TickEvent)
    (m0 : TermMode) : (run_display_loop fd ticks ⟨none, none, m0⟩).2.mode = m0 := by
  simp [run_display_loop, setup_terminal, restore_terminal, hfd]

/-- Witness for restore_works_for_nonzero_fd at descriptor 5. -/
theorem restore_works_for_nonzero_fd_witness :
    (run_display_loop 5 [.keeps] ⟨none, none, .original⟩).2.mode = .original :=
  restore_works_for_nonzero_fd 5 (by decide) [.keeps] .original

theorem mpv_get_status_unreachable :
    mpv_get_status none none none none = some ⟨0, 0, "stopped", 256⟩ := by
  simp only [mpv_get_status, pyOrHundred]
  refine congrArg some ?_
  have hv : (100 : ℚ) * (64 / 25) = 256 := by norm_num
  rw [hv]
  have h0 : pyInt 0 = 0 := by decide
  have h256 : pyInt 256 = 256 := by decide
  simp [h0, h256, Option.getD]

/-- C2 counterexample.  The claim states that every getStatus call on an
unreachable control endpoint returns None.  MPVClient.get_status refutes
it: with the socket absent every get_property call yields None, and the
function returns a status dictionary with state stopped, time 0, length 0
and volume 256 rather than None. -/
theorem C2_counterexample :
    mpv_get_status none none none none = some ⟨0, 0, "stopped", 256⟩
  ∧ mpv_get_status none none none none ≠ none := by
  refine ⟨mpv_get_status_unreachable, ?_⟩
  rw [mpv_get_status_unreachable]
  simp

/-- C2 as amended: the VLC-backend get_status returns None whenever the
exchange raises or the response code is not 200, and never raises itself;
the MPV-backend get_status also never raises, but on an unreachable socket
it degrades to a status with state stopped, time 0, length 0 and volume 256
instead of None. -/
theorem C2_status_unreachable_amended :
    vlc_get_status .failure = none
  ∧ (∀ code data, code ≠ 200 → vlc_get_status (.response code data) = none)
  ∧ (∀ p t d v, (mpv_get_status p t d v).isSome = true)
  ∧ mpv_get_status none none none none = some ⟨0, 0, "stopped", 256⟩ := by
  refine ⟨rfl, ?_, ?_, mpv_get_status_unreachable⟩
  · intro code data h
    simp [vlc_get_status, h]
  · intro p t d v
    cases t <;> simp [mpv_get_status]

/-- Witness for C2_status_unreachable_amended at response code 404. -/
theorem C2_witness :
    vlc_get_status (.response 404 ⟨none, none, none, none⟩) = none :=
  C2_status_unreachable_amended.2.1 404 ⟨none, none, none, none⟩ (by decide)

/-- C3 counterexample.  The claim states that every volume_up intent
requests min(100, current + 10).  The VLC dispatcher refutes it: the
request vlc_client.control sends for volume_up is the unclamped relative
string val=+10, independent of the current volume, and in particular it is
not the clamped absolute request the claim describes at current volume 95. -/
theorem C3_counterexample :
    vlc_control_request "volume_up" .vNone = some "command=volume&val=+10"
  ∧ spec_volume_up_request 95 = "command=volume&val=100"
  ∧ vlc_control_request "volume_up" .vNone ≠ some (spec_volume_up_request 95) := by
  decide

/-- C3 as amended: in the MPV client, volume_up requests exactly
min(100, current + 10) and volume_down exactly max(0, current - 10), so a
native volume starting in the interval from 0 to 100 never leaves it, and
no request at all is made when the current volume cannot be read; the
display layer attaches the AMPLIFIED label exactly when the displayed
percent exceeds 100, and an MPV-native volume at most 100 can never reach
that label; the VLC dispatcher, however, sends unclamped relative
val=+10 and val=-10 requests. -/
theorem C3_volume_clamped_amended :
    (∀ c : ℚ, 0 ≤ c → c ≤ 100 →
        mpv_volume_up (some c) = some (min 100 (c + 10))
      ∧ 0 ≤ min 100 (c + 10) ∧ min 100 (c + 10) ≤ 100
      ∧ mpv_volume_down (some c) = some (max 0 (c - 10))
      ∧ 0 ≤ max 0 (c - 10) ∧ max 0 (c - 10) ≤ 100)
  ∧ (mpv_volume_up none = none ∧ mpv_volume_down none = none)
  ∧ (∀ vol : ℤ, amplified_suffix vol = " (AMPLIFIED)" ↔ 100 < vol_percent vol)
  ∧ (∀ v : ℚ, 0 ≤ v → v ≤ 100 → vol_percent (pyInt (v * (64 / 25))) ≤ 100)
  ∧ vlc_control_request "volume_up" .vNone = some "command=volume&val=+10"
  ∧ vlc_control_request "volume_down" .vNone = some "command=volume&val=-10" := by
  refine ⟨?_, ⟨rfl, rfl⟩, ?_, ?_, by decide, by decide⟩
  · intro c h0 h1
    refine ⟨rfl, ?_, ?_, rfl, ?_, ?_⟩
    · exact le_min (by norm_num) (by linarith)
    · exact min_le_left _ _
    · exact le_max_left _ _
    · exact max_le (by norm_num) (by linarith)
  · intro vol
    rw [amplified_suffix]
    constructor
    · intro h
      by_contra hn
      rw [if_neg hn] at h
      exact absurd h (by decide)
    · intro h
      rw [if_pos h]
  · intro v h0 h1
    have hp : 0 ≤ v * (64 / 25 : ℚ) := by positivity
    have hle : v * (64 / 25 : ℚ) ≤ 256 := by nlinarith
    have hw0 : 0 ≤ pyInt (v * (64 / 25)) := by
      rw [pyInt_eq_floor _ hp]
      exact Int.floor_nonneg.mpr hp
    have hw : pyInt (v * (64 / 25)) ≤ 256 := by
      rw [pyInt_eq_floor _ hp]
      have h := Int.floor_le_floor hle
      simpa using h
    rw [vol_percent]
    have harg0 : (0 : ℚ) ≤ (pyInt (v * (64 / 25)) : ℚ) / 256 * 100 := by
      have : (0 : ℚ) ≤ (pyInt (v * (64 / 25)) : ℚ) := by exact_mod_cast hw0
      positivity
    have harg : (pyInt (v * (64 / 25)) : ℚ) / 256 * 100 ≤ 100 := by
      have hc : (pyInt (v * (64 / 25)) : ℚ) ≤ 256 := by exact_mod_cast hw
      linarith
    rw [pyInt_eq_floor _ harg0]
    have h := Int.floor_le_floor harg
    simpa using h

/-- Witness for C3_volume_clamped_amended at current volume 95. -/
theorem C3_witness :
    mpv_volume_up (some 95) = some (min 100 (95 + 10))
  ∧ vol_percent (pyInt ((95 : ℚ) * (64 / 25))) ≤ 100 :=
  ⟨(C3_volume_clamped_amended.1 95 (by decide) (by decide)).1,
   C3_volume_clamped_amended.2.2.2.1 95 (by decide) (by decide)⟩

/-- C4 counterexample.  The claim states that every force-stop performs the
escalation graceful quit, then terminate, then kill.  The VLC-backend
force_kill_vlc refutes it: applied to a live process it starts directly
with terminate and never issues a graceful quit request. -/
theorem C4_counterexample :
    (force_kill_vlc ⟨true, false⟩).2 = [Action.terminate]
  ∧ (force_kill_vlc ⟨true, true⟩).2 = [Action.terminate, Action.kill]
  ∧ (force_kill_vlc ⟨true, false⟩).2.head? ≠ some Action.quitCmd
  ∧ Action.quitCmd ∉ (force_kill_vlc ⟨true, true⟩).2 := by
  decide

/-- C4 as amended: MPVClient.stop performs the claimed escalation - a
graceful quit request first, terminate only if the process is still alive
after the bounded wait, kill only if it is still alive after the further
grace window, later steps skipped once the process is observed dead, and
the process is not running afterwards; the VLC-backend force_kill_vlc
escalates only terminate then kill, with no graceful-quit step. -/
theorem C4_stop_escalation_amended (p : ProcB) (hp : p.alive = true) (s : MPVState)
    (hs : s.process = some p) (sockFile : Bool) :
    stop_escalation p =
      .quitCmd :: (if p.survivesQuit then
        .terminate :: (if p.survivesTerm then [.kill] else []) else [])
  ∧ (stop_escalation p).head? = some .quitCmd
  ∧ ((Action.terminate ∈ stop_escalation p) ↔ p.survivesQuit = true)
  ∧ ((Action.kill ∈ stop_escalation p) ↔ (p.survivesQuit = true ∧ p.survivesTerm = true))
  ∧ (mpv_stop s sockFile).2.2.1 = false
  ∧ (∀ r : Proc, r.alive = true →
        (force_kill_vlc r).2 = .terminate :: (if r.survivesTerm then [.kill] else [])) := by
  obtain ⟨a, sq, st⟩ := p
  cases a
  · cases hp
  · refine ⟨by simp [stop_escalation], ?_, ?_, ?_, by simp [mpv_stop], ?_⟩
    · cases sq <;> cases st <;> decide
    · cases sq <;> cases st <;> decide
    · cases sq <;> cases st <;> decide
    · intro r hr
      obtain ⟨ra, rt⟩ := r
      cases ra
      · cases hr
      · cases rt <;> decide

/-- Witness for C4_stop_escalation_amended at a process that survives the
quit request but dies on terminate. -/
theorem C4_witness :
    stop_escalation ⟨true, true, false⟩ = [.quitCmd, .terminate]
  ∧ (mpv_stop ⟨some ⟨true, true, false⟩, some "/tmp/mpv_x.sock"⟩ true).2.2.1 = false := by
  have h := C4_stop_escalation_amended ⟨true, true, false⟩ rfl
    ⟨some ⟨true, true, false⟩, some "/tmp/mpv_x.sock"⟩ rfl true
  exact ⟨by rw [h.1]; decide, h.2.2.2.2.1⟩

/-- C5.  forceStop is idempotent, as claimed, in both backends: after one
call to MPVClient.stop the client fields are cleared, the socket file is
gone and the process is not running, and a second call performs no action
and leaves every component unchanged; likewise a second force_kill_vlc on
the already-stopped process performs no action. -/
theorem C5_force_stop_idempotent (s : MPVState) (sockFile : Bool)
    (hs : s.socketPath.isSome = true) :
    mpv_stop (mpv_stop s sockFile).1 (mpv_stop s sockFile).2.1 =
      ((mpv_stop s sockFile).1, (mpv_stop s sockFile).2.1, false, [])
  ∧ (mpv_stop s sockFile).1 = ⟨none, none⟩
  ∧ (mpv_stop s sockFile).2.1 = false
  ∧ (mpv_stop s sockFile).2.2.1 = false
  ∧ (∀ p : Proc, force_kill_vlc (force_kill_vlc p).1 = ((force_kill_vlc p).1, [])
      ∧ ((force_kill_vlc p).1).alive = false) := by
  obtain ⟨proc, sock⟩ := s
  cases sock
  · cases hs
  · refine ⟨?_, ?_, ?_, ?_, ?_⟩
    · cases sockFile <;> simp [mpv_stop]
    · simp [mpv_stop]
    · cases sockFile <;> simp [mpv_stop]
    · simp [mpv_stop]
    · intro p
      obtain ⟨a, t⟩ := p
      cases a <;> cases t <;> decide

/-- Witness for C5_force_stop_idempotent on a live handle with an existing
socket file. -/
theorem C5_witness :
    mpv_stop (mpv_stop ⟨some ⟨true, true, true⟩, some "/tmp/mpv_y.sock"⟩ true).1
        (mpv_stop ⟨some ⟨true, true, true⟩, some "/tmp/mpv_y.sock"⟩ true).2.1 =
      ((mpv_stop ⟨some ⟨true, true, true⟩, some "/tmp/mpv_y.sock"⟩ true).1,
       (mpv_stop ⟨some ⟨true, true, true⟩, some "/tmp/mpv_y.sock"⟩ true).2.1, false, [])
  ∧ (mpv_stop ⟨some ⟨true, true, true⟩, some "/tmp/mpv_y.sock"⟩ true).2.1 = false :=
  ⟨(C5_force_stop_idempotent ⟨some ⟨true, true, true⟩, some "/tmp/mpv_y.sock"⟩ true rfl).1,
   (C5_force_stop_idempotent ⟨some ⟨true, true, true⟩, some "/tmp/mpv_y.sock"⟩ true rfl).2.2.1⟩

/-- C6.  As the claim states: on the q key handle_input force-stops the
player and returns the quit outcome; on the s key it likewise force-stops
the player but returns the distinct stop outcome; in both cases the stream
of actions is exactly the force_kill_vlc escalation, beginning with
terminate, and the player process is not running afterwards. -/
theorem C6_quit_stop_outcomes (rest : List Char) (p : Proc) (hp : p.alive = true) :
    (handle_input ('q' :: rest) p).ret = some "quit"
  ∧ (handle_input ('s' :: rest) p).ret = some "stop"
  ∧ (some "quit" : Option String) ≠ some "stop"
  ∧ (handle_input ('q' :: rest) p).actions = (force_kill_vlc p).2
  ∧ (handle_input ('s' :: rest) p).actions = (force_kill_vlc p).2
  ∧ (handle_input ('q' :: rest) p).actions.head? = some .terminate
  ∧ (handle_input ('q' :: rest) p).proc.alive = false
  ∧ (handle_input ('s' :: rest) p).proc.alive = false := by
  obtain ⟨a, t⟩ := p
  cases a
  · cases hp
  · cases t <;> exact ⟨rfl, rfl, by decide, rfl, rfl, rfl, rfl, rfl⟩

/-- Witness for C6_quit_stop_outcomes on a live process with empty
remaining input. -/
theorem C6_witness :
    (handle_input ['q'] ⟨true, false⟩).ret = some "quit"
  ∧ (handle_input ['s'] ⟨true, false⟩).ret = some "stop"
  ∧ (handle_input ['q'] ⟨true, false⟩).proc.alive = false :=
  ⟨(C6_quit_stop_outcomes [] ⟨true, false⟩ rfl).1,
   (C6_quit_stop_outcomes [] ⟨true, false⟩ rfl).2.1,
   (C6_quit_stop_outcomes [] ⟨true, false⟩ rfl).2.2.2.2.2.2.1⟩

/-- C7.  As the claim states: when the first byte read is the escape byte,
exactly two further bytes are read (three in total); the four recognized
sequences dispatch the same control calls as the letter shortcuts i, o, l
and k respectively; and every other escape sequence is silently discarded -
no intent is returned, no control call is made, the process is untouched,
and no error is possible. -/
theorem C7_escape_sequences (b1 b2 : Char) (t : List Char) (p : Proc) :
    (handle_input (esc :: b1 :: b2 :: t) p).consumed = 3
  ∧ (handle_input (esc :: '[' :: 'A' :: t) p).actions = (handle_input ('i' :: t) p).actions
  ∧ (handle_input (esc :: '[' :: 'B' :: t) p).actions = (handle_input ('o' :: t) p).actions
  ∧ (handle_input (esc :: '[' :: 'C' :: t) p).actions = (handle_input ('l' :: t) p).actions
  ∧ (handle_input (esc :: '[' :: 'D' :: t) p).actions = (handle_input ('k' :: t) p).actions
  ∧ (handle_input (esc :: b1 :: b2 :: t) p).ret = none
  ∧ (handle_input (esc :: b1 :: b2 :: t) p).proc = p
  ∧ (¬ (b1 = '[' ∧ (b2 = 'A' ∨ b2 = 'B' ∨ b2 = 'C' ∨ b2 = 'D')) →
      (handle_input (esc :: b1 :: b2 :: t) p).actions = []) := by
  have hesc : esc.toLower = esc := by decide
  have htree : handle_input (esc :: b1 :: b2 :: t) p =
      (if [b1, b2] = ['[', 'A'] then ⟨none, p, 3, [.controlReq "volume_up" none]⟩
       else if [b1, b2] = ['[', 'B'] then ⟨none, p, 3, [.controlReq "volume_down" none]⟩
       else if [b1, b2] = ['[', 'C'] then ⟨none, p, 3, [.controlReq "seek" (some "+5")]⟩
       else if [b1, b2] = ['[', 'D'] then ⟨none, p, 3, [.controlReq "seek" (some "-5")]⟩
       else ⟨none, p, 3, []⟩) := by
    simp only [handle_input, hesc, if_pos rfl, List.take_succ_cons, List.take_zero,
      List.length_cons]
    have hmin : 1 + min 2 (t.length + 1 + 1) = 3 := by omega
    rw [hmin]
    simp only [if_true]
  refine ⟨?_, rfl, rfl, rfl, rfl, ?_, ?_, ?_⟩
  · rw [htree]
    split_ifs <;> rfl
  · rw [htree]
    split_ifs <;> rfl
  · rw [htree]
    split_ifs <;> rfl
  · intro h
    rw [htree]
    split_ifs with h1 h2 h3 h4
    · simp only [List.cons.injEq, and_true] at h1
      exact absurd ⟨h1.1, .inl h1.2⟩ h
    · simp only [List.cons.injEq, and_true] at h2
      exact absurd ⟨h2.1, .inr (.inl h2.2)⟩ h
    · simp only [List.cons.injEq, and_true] at h3
      exact absurd ⟨h3.1, .inr (.inr (.inl h3.2))⟩ h
    · simp only [List.cons.injEq, and_true] at h4
      exact absurd ⟨h4.1, .inr (.inr (.inr h4.2))⟩ h
    · rfl

/-- Witness for C7_escape_sequences at the unrecognized sequence escape,
bracket, Z. -/
theorem C7_witness :
    (handle_input [esc, '[', 'Z'] ⟨true, false⟩).consumed = 3
  ∧ (handle_input [esc, '[', 'Z'] ⟨true, false⟩).actions = []
  ∧ (handle_input [esc, '[', 'Z'] ⟨true, false⟩).ret = none :=
  ⟨(C7_escape_sequences '[' 'Z' [] ⟨true, false⟩).1,
   (C7_escape_sequences '[' 'Z' [] ⟨true, false⟩).2.2.2.2.2.2.2 (by decide),
   (C7_escape_sequences '[' 'Z' [] ⟨true, false⟩).2.2.2.2.2.1⟩

/-- C8.  The claim asserts that for the status with time 30 and length 180
the bar has an exact fill position of 5.0 cells, hence 5 full block cells
and no fractional glyph.  Under the binary64 arithmetic the code actually
performs, 30 / 180 * 100 evaluates to 4691249611844266 / 2 ^ 48 (the double
16.666666666666664), the exact position 30 * percent / 100 evaluates to
5629499534213119 / 2 ^ 50 (the double 4.999999999999999), so the code
renders 4 full cells followed by the seven-eighths glyph rather than the 5
clean cells the claim describes; only under exact rational arithmetic, the
claimed intent, is the fill position exactly 5 with no glyph.  The
remaining-time display 02:30 does hold. -/
theorem C8_float_progress_divergence :
    percent_float 30 180 = Rat.divInt 4691249611844266 281474976710656
  ∧ exact_pos_float (percent_float 30 180) = Rat.divInt 5629499534213119 1125899906842624
  ∧ pyInt (exact_pos_float (percent_float 30 180)) = 4
  ∧ progress_bar_float (percent_float 30 180) = "████▉" ++ repChar ' ' 25
  ∧ progress_bar (min 100 ((30 : ℚ) / 180 * 100)) = "█████" ++ repChar ' ' 25
  ∧ progress_bar_float (percent_float 30 180) ≠ progress_bar (min 100 ((30 : ℚ) / 180 * 100))
  ∧ (30 : ℚ) * (min 100 ((30 : ℚ) / 180 * 100)) / 100 = 5
  ∧ fmt2 (pyDivmod (pyInt (max 0 ((180 : ℚ) - 30))) 60).1 ++ ":" ++
      fmt2 (pyDivmod (pyInt (max 0 ((180 : ℚ) - 30))) 60).2 = "02:30" := by
  have hmin : min (100 : ℚ) ((30 : ℚ) / 180 * 100) = 50 / 3 := by
    rw [min_def]
    norm_num
  have hfloat : progress_bar_float (percent_float 30 180) = "████▉" ++ repChar ' ' 25 := by
    have h1 : exact_pos_float (percent_float 30 180) =
        Rat.divInt 5629499534213119 1125899906842624 := by decide
    have h5 : (0 : ℚ) < Rat.divInt 5629499534213119 1125899906842624 - Rat.divInt 4 1 := by
      rw [Rat.divInt_eq_div, Rat.divInt_eq_div]
      norm_num
    have h4 : eighth_glyph (Rat.divInt 5629499534213119 1125899906842624 - Rat.divInt 4 1) =
        "▉" := by
      unfold eighth_glyph
      rw [Rat.divInt_eq_div, Rat.divInt_eq_div]
      norm_num
    simp only [progress_bar_float, bar_of_pos, h1]
    have h2 : pyInt (Rat.divInt 5629499534213119 1125899906842624) = 4 := by decide
    rw [h2, if_pos h5, h4]
    decide
  have hexact : progress_bar (min 100 ((30 : ℚ) / 180 * 100)) = "█████" ++ repChar ' ' 25 := by
    rw [hmin]
    have e2 : (30 : ℚ) * (50 / 3) / 100 = 5 := by norm_num
    simp only [progress_bar, bar_of_pos, e2]
    have e3 : pyInt (5 : ℚ) = 5 := by decide
    rw [e3]
    have e4 : ¬ ((0 : ℚ) < (5 : ℚ) - Rat.divInt 5 1) := by
      rw [Rat.divInt_eq_div]
      norm_num
    rw [if_neg e4]
    decide
  refine ⟨by decide, by decide, by decide, hfloat, hexact, ?_, ?_, ?_⟩
  · rw [hfloat, hexact]
    decide
  · rw [hmin]
    norm_num
  · have hmax : max (0 : ℚ) ((180 : ℚ) - 30) = 150 := by norm_num
    rw [hmax]
    have h150 : pyInt (150 : ℚ) = 150 := by decide
    rw [h150]
    decide

/-- C9.  As the claim states: for every duration and elapsed time at least
0 and every percent between 0 and 100, the bar that display_progress places
between its square brackets consists of exactly 30 character cells - the
full blocks, the optional single fractional glyph and the space padding
always sum to the fixed bar length 30. -/
theorem C9_bar_length_invariant (duration elapsed percent : ℚ)
    (hd : 0 ≤ duration) (he : 0 ≤ elapsed) (h0 : 0 ≤ percent) (h1 : percent ≤ 100) :
    (progress_bar percent).length = 30
  ∧ (∃ rest : String, display_progress duration elapsed percent =
      "[" ++ (progress_bar percent ++ ("] " ++ rest))) := by
  constructor
  · apply bar_of_pos_length
    · positivity
    · rw [div_le_iff₀ (by norm_num : (0 : ℚ) < 100)]
      linarith
  · refine ⟨fmt2 (pyDivmod (pyInt elapsed) 60).1 ++ (":" ++
      (fmt2 (pyDivmod (pyInt elapsed) 60).2 ++ (" / " ++
      (fmt2 (if duration = 0 then ((0 : ℤ), (0 : ℤ)) else pyDivmod (pyInt duration) 60).1 ++
      (":" ++ (fmt2 (if duration = 0 then ((0 : ℤ), (0 : ℤ)) else
        pyDivmod (pyInt duration) 60).2 ++ (" [" ++
      (fmt2 (pyDivmod (pyInt (max 0 (duration - elapsed))) 60).1 ++ (":" ++
      (fmt2 (pyDivmod (pyInt (max 0 (duration - elapsed))) 60).2 ++
        " remaining]")))))))))), ?_⟩
    simp only [display_progress, String.append_assoc]

/-- Witness for C9_bar_length_invariant at duration 180, elapsed 30 and
percent 50. -/
theorem C9_witness :
    (progress_bar 50).length = 30 :=
  (C9_bar_length_invariant 180 30 50 (by decide) (by decide) (by decide) (by decide)).1

/-- C10 counterexample.  The claim states that a seek value whose text does
not parse as an integer after stripping one leading plus sign produces no
seek exchange and the call returns False.  The MPV dispatcher refutes it:
it removes every plus character before parsing, so for the value 5+ - which
does not parse under the claimed rule - it sends a relative seek of 5
seconds and does not return False.  The VLC dispatcher also refutes the
claim: it performs no parse at all and forwards the unparseable value abc
in a seek request. -/
theorem C10_counterexample :
    spec_seek_parse "5+" = none
  ∧ mpv_control_seek (.vStr "5+") = (some 5, false)
  ∧ vlc_control_request "seek" (.vStr "abc") = some "command=seek&val=abc" := by
  decide

/-- C10 as amended: for a falsy seek value (None, the empty string, or the
integer 0) neither dispatcher issues any request and the MPV dispatcher
returns False (the VLC dispatcher always returns None); the MPV dispatcher
issues a relative-seek exchange exactly for values whose text parses as an
integer after removing every plus character, returning False otherwise;
the VLC dispatcher forwards every truthy value unparsed. -/
theorem C10_seek_dispatch_amended :
    (∀ v : PyVal, v.truthy = false →
        mpv_control_seek v = (none, true) ∧ vlc_control_request "seek" v = none)
  ∧ (∀ v : PyVal, v.truthy = true → mpv_seek_parse v = none →
        mpv_control_seek v = (none, true))
  ∧ (∀ (v : PyVal) (n : ℤ), v.truthy = true → mpv_seek_parse v = some n →
        mpv_control_seek v = (some n, false))
  ∧ (∀ v : PyVal, v.truthy = true →
        vlc_control_request "seek" v = some ("command=seek&val=" ++ v.toText)) := by
  refine ⟨?_, ?_, ?_, ?_⟩
  · intro v hv
    exact ⟨by simp [mpv_control_seek, hv], by simp [vlc_control_request, hv]⟩
  · intro v hv hp
    simp [mpv_control_seek, hv, hp]
  · intro v n hv hp
    simp [mpv_control_seek, hv, hp]
  · intro v hv
    simp [vlc_control_request, hv]

/-- Witness for C10_seek_dispatch_amended at the falsy value None and the
parsing value +5. -/
theorem C10_witness :
    mpv_control_seek .vNone = (none, true)
  ∧ mpv_control_seek (.vStr "+5") = (some 5, false) :=
  ⟨(C10_seek_dispatch_amended.1 .vNone (by decide)).1,
   C10_seek_dispatch_amended.2.2.1 (.vStr "+5") 5 (by decide) (by decide)⟩

end Ytmcli
